import Mathlib

/-!
Verification of the BrainCX/TELEAINEW voice-orchestration core against its
specification. The repository ships the web dashboard, the API reference and
the database setup; the orchestration core itself (Session Controller, Turn
Arbiter, Reasoning loop, Transcription/Synthesis adapters, usage accounting)
is documented but its implementation files are not present, so those
components are modelled here directly from the specification text (each such
definition carries a doc comment saying so). The web-client functions
(`formatDuration`, `endCall`, the `apiClient` wrappers) are translated from
the JavaScript sources under `app/web/src`.
-/

namespace TeleAI

/-- Session states. `CONNECTING`, `ACTIVE`, `LISTENING`, `SPEAKING` are the
live states of spec section 4.1; `ENDED`, `ABANDONED`, `ERROR` are the terminal
status values that also appear in the API reference (Status Values). -/
inductive SessState
  | CONNECTING
  | ACTIVE
  | LISTENING
  | SPEAKING
  | ENDED
  | ABANDONED
  | ERROR
deriving DecidableEq, Repr

/-- A state is terminal when it is `ENDED`, `ABANDONED` or `ERROR`. -/
def SessState.isTerminal : SessState → Bool
  | .ENDED => true
  | .ABANDONED => true
  | .ERROR => true
  | _ => false

/-- Pipeline stage of a usage record (transcription, reasoning, synthesis or
tool), as in the spec data model. -/
inductive Stage
  | transcription
  | reasoning
  | synthesis
  | tool
deriving DecidableEq, Repr

/-- Modelled from the spec: a `UsageRecord` has a stage, a unit count and a
provider-reported cost; costs are modelled as naturals (e.g. micro-cents). -/
structure UsageRecord where
  stage : Stage
  units : Nat
  cost : Nat
deriving DecidableEq, Repr

/-- Sum of the costs of a list of usage records. -/
def sumCosts (l : List UsageRecord) : Nat :=
  l.foldl (fun acc u => acc + u.cost) 0

/-- Modelled from the spec: the barge-in confidence/duration thresholds are an
implementation parameter exposed as configuration (spec section 9, open
question), so they are carried as an explicit configuration record. -/
structure BargeInConfig where
  confThreshold : Nat
  durThreshold : Nat

/-- Modelled from the spec: the per-session state owned by the Session
Controller — current state, whether an explicit end request was issued, the
progress point of the in-flight synthesis (number of chunks already sent), and
the appended usage records. -/
structure Session where
  state : SessState
  endRequested : Bool
  synthProgress : Nat
  usage : List UsageRecord
deriving DecidableEq, Repr

/-- Modelled from the spec: the events the Session Controller serializes —
transport handshake, partial/final transcripts (a partial carries the
confidence and duration used by the barge-in rule), synthesis lifecycle
events, usage appends, explicit end requests, transport disconnects and
non-retryable adapter failures. -/
inductive Event
  | transportConnected
  | partialUtterance (conf dur : Nat)
  | finalUtterance
  | synthStarted
  | synthChunk
  | synthComplete
  | appendUsage (u : UsageRecord)
  | endRequest
  | disconnect
  | fatalError
deriving DecidableEq, Repr

/-- Modelled from the spec: observable side effects of a transition —
cancellation signals to the Synthesis Adapter and the Reasoning Engine, and
the terminal call to the Session Recorder with status and total cost. -/
inductive Effect
  | cancelSynthesis
  | cancelReasoning
  | recordSession (status : SessState) (totalCost : Nat)
deriving DecidableEq, Repr

/-- A partial transcript is a barge-in when its confidence and duration reach
the configured thresholds (non-trivial confidence/duration). -/
def isBargeIn (cfg : BargeInConfig) (conf dur : Nat) : Bool :=
  cfg.confThreshold ≤ conf && cfg.durThreshold ≤ dur

/-- Terminal transition: move to the terminal state and call the Session
Recorder once with the flushed usage total (spec section 4.1, side effects on
terminal transition). -/
def terminalStep (s : Session) (t : SessState) : Session × List Effect :=
  ({ s with state := t }, [Effect.recordSession t (sumCosts s.usage)])

/-- Modelled from the spec: the Session Controller transition function of spec
section 4.1 together with the Turn Arbiter barge-in rule of section 4.2. The
implementation of this component is not among the shipped sources; the
transition table follows the spec clause by clause. Terminal states accept no
event; a synthesis-complete event is only honoured in `SPEAKING`, so one that
arrives after a barge-in (state already `LISTENING`) is discarded. -/
def step (cfg : BargeInConfig) (s : Session) (e : Event) : Session × List Effect :=
  if s.state.isTerminal then (s, [])
  else
    match e with
    | .transportConnected =>
        if s.state = .CONNECTING then ({ s with state := .ACTIVE }, []) else (s, [])
    | .partialUtterance conf dur =>
        match s.state with
        | .ACTIVE => ({ s with state := .LISTENING }, [])
        | .LISTENING => (s, [])
        | .SPEAKING =>
            if isBargeIn cfg conf dur then
              ({ s with state := .LISTENING, synthProgress := 0 },
               [Effect.cancelSynthesis, Effect.cancelReasoning])
            else (s, [])
        | _ => (s, [])
    | .finalUtterance => (s, [])
    | .synthStarted =>
        if s.state = .LISTENING then
          ({ s with state := .SPEAKING, synthProgress := 0 }, [])
        else (s, [])
    | .synthChunk =>
        if s.state = .SPEAKING then
          ({ s with synthProgress := s.synthProgress + 1 }, [])
        else (s, [])
    | .synthComplete =>
        if s.state = .SPEAKING then ({ s with state := .ACTIVE }, []) else (s, [])
    | .appendUsage u => ({ s with usage := s.usage ++ [u] }, [])
    | .endRequest => terminalStep { s with endRequested := true } .ENDED
    | .disconnect => terminalStep s .ABANDONED
    | .fatalError => terminalStep s .ERROR

/-- Run the controller over a trace of events, accumulating effects. -/
def run (cfg : BargeInConfig) (s : Session) : List Event → Session × List Effect
  | [] => (s, [])
  | e :: rest =>
      let p := step cfg s e
      let q := run cfg p.1 rest
      (q.1, p.2 ++ q.2)

/-- Number of Session Recorder calls among a list of effects. -/
def countRecords (effs : List Effect) : Nat :=
  effs.countP fun e =>
    match e with
    | .recordSession _ _ => true
    | _ => false

theorem step_terminal_eq (cfg : BargeInConfig) (s : Session) (e : Event)
    (h : s.state.isTerminal = true) : step cfg s e = (s, []) := by
  simp [step, h]

theorem run_terminal_eq (cfg : BargeInConfig) (s : Session) (tr : List Event)
    (h : s.state.isTerminal = true) : run cfg s tr = (s, []) := by
  induction tr with
  | nil => rfl
  | cons e rest ih => simp [run, step_terminal_eq cfg s e h, ih]

/-- C2: once a session's state is terminal (`ENDED`, `ABANDONED` or `ERROR`),
no event of the Session Controller step relation changes it: the step leaves
the session unchanged and produces no effects, so the state never changes
again. -/
theorem terminal_states_absorb (cfg : BargeInConfig) (s : Session) (e : Event)
    (h : s.state.isTerminal = true) :
    step cfg s e = (s, []) ∧ (step cfg s e).1.state = s.state := by
  refine ⟨step_terminal_eq cfg s e h, ?_⟩
  rw [step_terminal_eq cfg s e h]

/-- Witness for C2 at a concrete terminal session and event. -/
theorem terminal_states_absorb_witness :
    step ⟨5, 3⟩ ⟨.ENDED, false, 7, []⟩ .disconnect = (⟨.ENDED, false, 7, []⟩, []) :=
  (terminal_states_absorb ⟨5, 3⟩ ⟨.ENDED, false, 7, []⟩ .disconnect (by decide)).1

/-- C1: a barge-in (partial transcript meeting the configured
confidence/duration thresholds) arriving while the session is `SPEAKING`
always transitions it to `LISTENING` and emits cancellation signals to both
the Synthesis Adapter and the Reasoning Engine, for every progress point of
the in-flight synthesis; and a synthesis-complete event applied after the
barge-in is discarded (no state change, no effects). -/
theorem bargein_cancels_and_discards_completion (cfg : BargeInConfig) (s : Session)
    (conf dur : Nat) (hs : s.state = .SPEAKING) (hb : isBargeIn cfg conf dur = true) :
    step cfg s (.partialUtterance conf dur) =
      ({ s with state := .LISTENING, synthProgress := 0 },
       [Effect.cancelSynthesis, Effect.cancelReasoning]) ∧
    step cfg (step cfg s (.partialUtterance conf dur)).1 .synthComplete =
      ((step cfg s (.partialUtterance conf dur)).1, []) := by
  have h1 : step cfg s (.partialUtterance conf dur) =
      ({ s with state := .LISTENING, synthProgress := 0 },
       [Effect.cancelSynthesis, Effect.cancelReasoning]) := by
    simp [step, hs, SessState.isTerminal, hb]
  refine ⟨h1, ?_⟩
  rw [h1]
  simp [step, SessState.isTerminal]

/-- Witness for C1 at a concrete speaking session, mid-synthesis. -/
theorem bargein_cancels_and_discards_completion_witness :
    step ⟨1, 1⟩ ⟨.SPEAKING, false, 42, []⟩ (.partialUtterance 2 3) =
      (⟨.LISTENING, false, 0, []⟩, [Effect.cancelSynthesis, Effect.cancelReasoning]) :=
  (bargein_cancels_and_discards_completion ⟨1, 1⟩ ⟨.SPEAKING, false, 42, []⟩ 2 3
    (by decide) (by decide)).1

/-- C7: a transport disconnect while `LISTENING` with no explicit end request
issued transitions the session to `ABANDONED`, and over the whole remaining
trace the Session Recorder is called exactly once, with the partial cost
accumulated so far. -/
theorem disconnect_while_listening_abandons (cfg : BargeInConfig) (s : Session)
    (rest : List Event) (hs : s.state = .LISTENING) (_he : s.endRequested = false) :
    (run cfg s (.disconnect :: rest)).1.state = .ABANDONED ∧
    countRecords (run cfg s (.disconnect :: rest)).2 = 1 ∧
    Effect.recordSession .ABANDONED (sumCosts s.usage) ∈
      (run cfg s (.disconnect :: rest)).2 := by
  have hstep : step cfg s .disconnect =
      ({ s with state := .ABANDONED },
       [Effect.recordSession .ABANDONED (sumCosts s.usage)]) := by
    simp [step, hs, SessState.isTerminal, terminalStep]
  have hterm : ({ s with state := .ABANDONED } : Session).state.isTerminal = true := rfl
  have hrun : run cfg s (.disconnect :: rest) =
      ({ s with state := .ABANDONED },
       [Effect.recordSession .ABANDONED (sumCosts s.usage)]) := by
    simp [run, hstep, run_terminal_eq cfg _ rest hterm]
  rw [hrun]
  refine ⟨rfl, ?_, by simp⟩
  simp [countRecords]

/-- Witness for C7 at a concrete listening session with accumulated usage. -/
theorem disconnect_while_listening_abandons_witness :
    (run ⟨1, 1⟩ ⟨.LISTENING, false, 0, [⟨.reasoning, 10, 25⟩]⟩
        [.disconnect, .synthComplete]).1.state = .ABANDONED ∧
    countRecords (run ⟨1, 1⟩ ⟨.LISTENING, false, 0, [⟨.reasoning, 10, 25⟩]⟩
        [.disconnect, .synthComplete]).2 = 1 ∧
    Effect.recordSession .ABANDONED (sumCosts [⟨.reasoning, 10, 25⟩]) ∈
      (run ⟨1, 1⟩ ⟨.LISTENING, false, 0, [⟨.reasoning, 10, 25⟩]⟩
        [.disconnect, .synthComplete]).2 :=
  disconnect_while_listening_abandons ⟨1, 1⟩ ⟨.LISTENING, false, 0, [⟨.reasoning, 10, 25⟩]⟩
    [.synthComplete] (by decide) (by decide)

/-- An outbound synthesis audio stream tracked by the Turn Arbiter: its
identifier and whether it is currently marked active. -/
structure AudioStream where
  sid : Nat
  active : Bool
deriving DecidableEq, Repr

/-- Modelled from the spec: the Turn Arbiter state — the streams it has
started so far and the next stream identifier. -/
structure ArbState where
  streams : List AudioStream
  nextSid : Nat
deriving DecidableEq, Repr

/-- Modelled from the spec: the Turn Arbiter entry points that affect which
outbound stream is active — a new synthesis start, audio chunks, synthesis
completion, and a barge-in cancellation. -/
inductive ArbEvent
  | agentAudioStart
  | agentAudioChunk
  | agentAudioDone
  | bargeInCancel
deriving DecidableEq, Repr

/-- Mark every stream inactive (cancellation/completion of outbound audio). -/
def deactivateAll (l : List AudioStream) : List AudioStream :=
  l.map fun st => { st with active := false }

/-- Modelled from the spec: the Turn Arbiter is the single authority over who
may produce audio. Starting a new synthesis stream first deactivates any
in-flight stream (the one being cancelled) and then marks exactly the new
stream active; barge-in cancellation and completion deactivate everything. -/
def arbStep (a : ArbState) : ArbEvent → ArbState
  | .agentAudioStart =>
      { streams := deactivateAll a.streams ++ [⟨a.nextSid, true⟩],
        nextSid := a.nextSid + 1 }
  | .agentAudioChunk => a
  | .agentAudioDone => { a with streams := deactivateAll a.streams }
  | .bargeInCancel => { a with streams := deactivateAll a.streams }

/-- Run the arbiter over a list of events. -/
def arbRun (a : ArbState) : List ArbEvent → ArbState
  | [] => a
  | e :: rest => arbRun (arbStep a e) rest

/-- The arbiter's initial state: no streams. -/
def arbInit : ArbState := { streams := [], nextSid := 0 }

/-- Number of streams currently marked active. -/
def activeCount (a : ArbState) : Nat :=
  a.streams.countP fun st => st.active

theorem countP_deactivateAll (l : List AudioStream) :
    (deactivateAll l).countP (fun st => st.active) = 0 := by
  induction l with
  | nil => rfl
  | cons x xs ih => simp [deactivateAll, List.countP_cons]

theorem activeCount_arbStep_le (a : ArbState) (e : ArbEvent)
    (h : activeCount a ≤ 1) : activeCount (arbStep a e) ≤ 1 := by
  cases e with
  | agentAudioStart =>
      simp [arbStep, activeCount, List.countP_append, countP_deactivateAll, List.countP_cons]
  | agentAudioChunk => exact h
  | agentAudioDone => simp [arbStep, activeCount, countP_deactivateAll]
  | bargeInCancel => simp [arbStep, activeCount, countP_deactivateAll]

theorem activeCount_arbRun_le (evts : List ArbEvent) (a : ArbState)
    (h : activeCount a ≤ 1) : activeCount (arbRun a evts) ≤ 1 := by
  induction evts generalizing a with
  | nil => exact h
  | cons e rest ih => exact ih (arbStep a e) (activeCount_arbStep_le a e h)

/-- C8: in every state of the Turn Arbiter reachable from its initial state,
at most one outbound audio stream is marked active — there is no reachable
state in which a stream being cancelled and a newly started stream are both
active. -/
theorem arbiter_at_most_one_active (evts : List ArbEvent) :
    activeCount (arbRun arbInit evts) ≤ 1 :=
  activeCount_arbRun_le evts arbInit (by decide)

/-- An utterance event as emitted by the Transcription Adapter: the logical
utterance id, the transcript text and the finality flag. -/
structure UttEvent where
  uid : Nat
  text : String
  isFinal : Bool
deriving DecidableEq, Repr

/-- Modelled from the spec: the Transcription Adapter guarantees the
partial-then-final ordering per utterance id itself (the controller does not
re-derive it). It tracks the set of ids already finalized, drops any
provider event for a finalized id, and marks an id finalized when it emits
its final event. -/
def adapterEmit (finalized : List Nat) : List UttEvent → List UttEvent
  | [] => []
  | e :: rest =>
      if e.uid ∈ finalized then adapterEmit finalized rest
      else e :: adapterEmit (if e.isFinal then e.uid :: finalized else finalized) rest

/-- No event in the list carries the given utterance id. -/
def noneWithId (uid : Nat) (l : List UttEvent) : Bool :=
  l.all fun e => e.uid != uid

/-- Every final event in the list is the last event for its id: no later
event (partial or final) carries the same id. -/
def finalIsLast : List UttEvent → Bool
  | [] => true
  | e :: rest => (!e.isFinal || noneWithId e.uid rest) && finalIsLast rest

theorem noneWithId_adapterEmit (uid : Nat) (l : List UttEvent) (finalized : List Nat)
    (h : uid ∈ finalized) : noneWithId uid (adapterEmit finalized l) = true := by
  induction l generalizing finalized with
  | nil => rfl
  | cons e rest ih =>
      by_cases hm : e.uid ∈ finalized
      · simp only [adapterEmit, if_pos hm]
        exact ih finalized h
      · have hne : e.uid ≠ uid := fun hq => hm (hq ▸ h)
        have hmem : uid ∈ if e.isFinal then e.uid :: finalized else finalized := by
          by_cases hf : e.isFinal <;> simp [hf, h]
        simp only [adapterEmit, if_neg hm, noneWithId, List.all_cons, Bool.and_eq_true]
        exact ⟨by simp [hne], ih _ hmem⟩

theorem finalIsLast_adapterEmit (l : List UttEvent) (finalized : List Nat) :
    finalIsLast (adapterEmit finalized l) = true := by
  induction l generalizing finalized with
  | nil => rfl
  | cons e rest ih =>
      by_cases hm : e.uid ∈ finalized
      · simp only [adapterEmit, if_pos hm]
        exact ih finalized
      · simp only [adapterEmit, if_neg hm, finalIsLast, Bool.and_eq_true]
        refine ⟨?_, ih _⟩
        by_cases hf : e.isFinal
        · have := noneWithId_adapterEmit e.uid rest (e.uid :: finalized) (by simp)
          simp [hf, this]
        · simp [hf]

theorem noneWithId_count_zero (uid : Nat) (l : List UttEvent)
    (h : noneWithId uid l = true) :
    l.countP (fun e => e.uid == uid && e.isFinal) = 0 := by
  induction l with
  | nil => rfl
  | cons e rest ih =>
      rw [show noneWithId uid (e :: rest) = ((e.uid != uid) && noneWithId uid rest) from rfl,
        Bool.and_eq_true] at h
      have hne : e.uid ≠ uid := by simpa using h.1
      rw [List.countP_cons]
      simp [hne, ih h.2]

theorem finalIsLast_count_le (l : List UttEvent) (uid : Nat)
    (h : finalIsLast l = true) :
    l.countP (fun e => e.uid == uid && e.isFinal) ≤ 1 := by
  induction l with
  | nil => simp
  | cons e rest ih =>
      rw [show finalIsLast (e :: rest) =
          (((!e.isFinal) || noneWithId e.uid rest) && finalIsLast rest) from rfl,
        Bool.and_eq_true] at h
      rw [List.countP_cons]
      by_cases hmatch : (e.uid == uid && e.isFinal) = true
      · obtain ⟨h1, h2⟩ := Bool.and_eq_true _ _ |>.mp hmatch
        have huid : e.uid = uid := by simpa using h1
        have hnone : noneWithId e.uid rest = true := by
          rcases Bool.or_eq_true _ _ |>.mp h.1 with hx | hx
          · simp [h2] at hx
          · exact hx
        have hzero := noneWithId_count_zero uid rest (huid ▸ hnone)
        simp [hmatch, hzero]
      · have hz : (if (e.uid == uid && e.isFinal) = true then 1 else 0) = 0 := by
          simp [hmatch]
        rw [hz]
        simpa using ih h.2

/-- C4: in the event sequence the Transcription Adapter emits, for every
utterance id there is at most one event with the final flag, and no event
with that id (partial or final) follows a final event for it — the final is
always last for its id. This holds for every raw provider input sequence. -/
theorem adapter_final_is_last (raw : List UttEvent) (uid : Nat) :
    (adapterEmit [] raw).countP (fun e => e.uid == uid && e.isFinal) ≤ 1 ∧
    finalIsLast (adapterEmit [] raw) = true :=
  ⟨finalIsLast_count_le _ uid (finalIsLast_adapterEmit raw []),
   finalIsLast_adapterEmit raw []⟩

/-- A response event of the Reasoning Engine: either response text or a
tool-call request. -/
inductive LMResponse
  | textResponse (text : String)
  | toolCallRequest (name args : String)

/-- An item of the reasoning context: conversation history entries, the new
user utterance, and appended tool results. -/
inductive CtxItem
  | userMsg (text : String)
  | assistantText (text : String)
  | toolResult (text : String)

/-- Reasoning failures; exceeding the configured maximum tool-call depth is a
`ReasoningError`. -/
inductive ReasoningError
  | maxDepthExceeded
deriving DecidableEq, Repr

/-- Modelled from the spec: the reasoning loop of spec section 4.3. Given the
engine (context to response) and the tool executor, it re-invokes the engine
with the tool result appended after each `ToolCallRequest`, until a
`TextResponse` is produced or the remaining tool-call budget runs out, in
which case it stops with a `ReasoningError`. -/
def reasoningLoop (engine : List CtxItem → LMResponse) (exec : String → String → String)
    (ctx : List CtxItem) : Nat → Except ReasoningError String
  | 0 => .error .maxDepthExceeded
  | d + 1 =>
      match engine ctx with
      | .textResponse t => .ok t
      | .toolCallRequest name args =>
          reasoningLoop engine exec (ctx ++ [CtxItem.toolResult (exec name args)]) (d)

/-- Modelled from the spec: one full reasoning pass for a final utterance,
with a budget of `maxDepth` tool calls before the depth is exceeded. -/
def runReasoning (engine : List CtxItem → LMResponse) (exec : String → String → String)
    (history : List CtxItem) (finalUtt : String) (maxDepth : Nat) :
    Except ReasoningError String :=
  reasoningLoop engine exec (history ++ [CtxItem.userMsg finalUtt]) (maxDepth + 1)

theorem reasoningLoop_total (engine : List CtxItem → LMResponse)
    (exec : String → String → String) (d : Nat) (ctx : List CtxItem) :
    (∃ t, reasoningLoop engine exec ctx d = .ok t) ∨
    reasoningLoop engine exec ctx d = .error .maxDepthExceeded := by
  induction d generalizing ctx with
  | zero => exact Or.inr rfl
  | succ n ih =>
      cases hE : engine ctx with
      | textResponse t => exact Or.inl ⟨t, by simp [reasoningLoop, hE]⟩
      | toolCallRequest name args =>
          have := ih (ctx ++ [CtxItem.toolResult (exec name args)])
          simpa [reasoningLoop, hE] using this

theorem reasoningLoop_all_tools_error (engine : List CtxItem → LMResponse)
    (exec : String → String → String) (d : Nat) (ctx : List CtxItem)
    (h : ∀ c, ∃ name args, engine c = .toolCallRequest name args) :
    reasoningLoop engine exec ctx d = .error .maxDepthExceeded := by
  induction d generalizing ctx with
  | zero => rfl
  | succ n ih =>
      obtain ⟨name, args, hE⟩ := h ctx
      simpa [reasoningLoop, hE] using ih (ctx ++ [CtxItem.toolResult (exec name args)])

/-- C5: for every engine, tool executor, conversation history, final
utterance and configured maximum tool-call depth, the reasoning loop
terminates — it yields either a `TextResponse` within the depth bound or the
max-depth-exceeded `ReasoningError`, never an unbounded iteration; and
whenever the engine keeps issuing `ToolCallRequest`s at every context, the
result is exactly that `ReasoningError`. -/
theorem reasoning_loop_terminates (engine : List CtxItem → LMResponse)
    (exec : String → String → String) (history : List CtxItem) (finalUtt : String)
    (maxDepth : Nat) :
    ((∃ t, runReasoning engine exec history finalUtt maxDepth = .ok t) ∨
      runReasoning engine exec history finalUtt maxDepth = .error .maxDepthExceeded) ∧
    ((∀ c, ∃ name args, engine c = .toolCallRequest name args) →
      runReasoning engine exec history finalUtt maxDepth = .error .maxDepthExceeded) :=
  ⟨reasoningLoop_total engine exec (maxDepth + 1) _,
   fun h => reasoningLoop_all_tools_error engine exec (maxDepth + 1) _ h⟩

/-- Witness for C5: an engine that always requests a tool call exhausts the
depth budget and surfaces the `ReasoningError`. -/
theorem reasoning_loop_terminates_witness :
    runReasoning (fun _ => .toolCallRequest "calculate" "25*4") (fun _ _ => "100")
      [] "What is 25 times 4?" 3 = .error .maxDepthExceeded :=
  (reasoning_loop_terminates (fun _ => .toolCallRequest "calculate" "25*4")
    (fun _ _ => "100") [] "What is 25 times 4?" 3).2
    (fun _ => ⟨"calculate", "25*4", rfl⟩)

/-- Outcome of one provider-call attempt: a failure (timeout/provider error,
to be retried) or a success carrying the usage it incurred. -/
inductive AttemptResult
  | failed
  | succeeded (u : UsageRecord)
deriving DecidableEq, Repr

/-- Modelled from the spec: the bounded retry loop of an adapter call — failed
attempts are retried and produce no usage; the first successful attempt
yields the call's single usage record. -/
def firstSuccess : List AttemptResult → Option UsageRecord
  | [] => none
  | .failed :: rest => firstSuccess rest
  | .succeeded u :: _ => some u

/-- Usage records appended by one (possibly retried) adapter call: exactly the
record of the first successful attempt, or none when every attempt failed. -/
def recordsOfCall (attempts : List AttemptResult) : List UsageRecord :=
  match firstSuccess attempts with
  | some u => [u]
  | none => []

/-- Modelled from the spec: the controller's usage accounting — the
append-only record list together with the running total it accumulates. -/
structure CostState where
  records : List UsageRecord
  total : Nat
deriving DecidableEq, Repr

/-- Append one usage record and add its cost to the running total. -/
def appendRecord (st : CostState) (u : UsageRecord) : CostState :=
  { records := st.records ++ [u], total := st.total + u.cost }

/-- Process one adapter call (with its retry attempts) against the cost
state. -/
def processCall (st : CostState) (attempts : List AttemptResult) : CostState :=
  match firstSuccess attempts with
  | some u => appendRecord st u
  | none => st

/-- Process a session's sequence of adapter calls. -/
def processCalls (st : CostState) : List (List AttemptResult) → CostState
  | [] => st
  | c :: rest => processCalls (processCall st c) rest

/-- Empty cost state at session start. -/
def initialCost : CostState := { records := [], total := 0 }

theorem sumCosts_append (l : List UsageRecord) (u : UsageRecord) :
    sumCosts (l ++ [u]) = sumCosts l + u.cost := by
  simp [sumCosts, List.foldl_append]

theorem processCall_invariant (st : CostState) (attempts : List AttemptResult)
    (h : st.total = sumCosts st.records) :
    (processCall st attempts).total = sumCosts (processCall st attempts).records := by
  unfold processCall
  cases firstSuccess attempts with
  | none => exact h
  | some u => simp [appendRecord, sumCosts_append, h]

theorem processCalls_invariant (calls : List (List AttemptResult)) (st : CostState)
    (h : st.total = sumCosts st.records) :
    (processCalls st calls).total = sumCosts (processCalls st calls).records := by
  induction calls generalizing st with
  | nil => exact h
  | cons c rest ih => exact ih (processCall st c) (processCall_invariant st c h)

/-- C6: the running total the controller reports at session end equals the
sum of the individually appended usage records, for every sequence of adapter
calls including retried ones; and a call that is retried and eventually
succeeds contributes exactly one usage record (one per call, not one per
attempt). -/
theorem total_cost_no_double_count (calls : List (List AttemptResult))
    (attempts : List AttemptResult) (u : UsageRecord)
    (hs : firstSuccess attempts = some u) :
    (processCalls initialCost calls).total =
      sumCosts (processCalls initialCost calls).records ∧
    recordsOfCall attempts = [u] := by
  refine ⟨processCalls_invariant calls initialCost rfl, ?_⟩
  simp [recordsOfCall, hs]

/-- Witness for C6: two calls, the second retried once before succeeding; the
retried call contributes a single record and the total matches the sum. -/
theorem total_cost_no_double_count_witness :
    (processCalls initialCost
        [[.succeeded ⟨.transcription, 4, 10⟩],
         [.failed, .succeeded ⟨.synthesis, 9, 32⟩]]).total =
      sumCosts (processCalls initialCost
        [[.succeeded ⟨.transcription, 4, 10⟩],
         [.failed, .succeeded ⟨.synthesis, 9, 32⟩]]).records ∧
    recordsOfCall [.failed, .succeeded ⟨.synthesis, 9, 32⟩] = [⟨.synthesis, 9, 32⟩] :=
  total_cost_no_double_count
    [[.succeeded ⟨.transcription, 4, 10⟩], [.failed, .succeeded ⟨.synthesis, 9, 32⟩]]
    [.failed, .succeeded ⟨.synthesis, 9, 32⟩] ⟨.synthesis, 9, 32⟩ rfl

/-- Modelled from the spec: the persisted session record handed to the
Session Recorder — status, start/end times (seconds), total cost and the
usage appended so far. -/
structure SessionRecord where
  status : SessState
  startedAt : Nat
  endedAt : Option Nat
  totalCost : Nat
  usage : List UsageRecord
deriving DecidableEq, Repr

/-- The Session Recorder collaborator interface: one call at session end
carrying status, times and total cost. -/
inductive RecorderEffect
  | onSessionEnd (status : SessState) (startedAt endedAt totalCost : Nat)
deriving DecidableEq, Repr

/-- Modelled from the spec: the end-session operation behind
`POST /sessions/id/end` (invoked by `apiClient.endSession` from `endCall`).
A non-terminal session is moved to `ENDED`, its end time is set exactly once,
its usage is flushed into the total cost, and the Session Recorder is called;
a session already in a terminal state is observed as such and left untouched,
with no side effects. -/
def endSessionOp (s : SessionRecord) (now : Nat) : SessionRecord × List RecorderEffect :=
  if s.status.isTerminal then (s, [])
  else
    let total := sumCosts s.usage
    ({ s with status := .ENDED, endedAt := some now, totalCost := total },
     [RecorderEffect.onSessionEnd .ENDED s.startedAt now total])

/-- C3: ending a session twice is idempotent — the second invocation starts
from the terminal record produced by the first, performs no side effects (no
second Session Recorder call, no change to end time, status or cost) and
returns that record unchanged, for every session record and pair of
invocation times. -/
theorem endSession_idempotent (s : SessionRecord) (t1 t2 : Nat) :
    endSessionOp (endSessionOp s t1).1 t2 = ((endSessionOp s t1).1, []) := by
  by_cases h : s.status.isTerminal = true
  · simp [endSessionOp, h]
  · have h1 : (endSessionOp s t1).1.status = .ENDED := by
      simp [endSessionOp, h]
    revert h1
    generalize (endSessionOp s t1).1 = s1
    intro h1
    simp [endSessionOp, h1, SessState.isTerminal]

/-- Translation of JavaScript `String.prototype.padStart(2, char)` as used in
`SessionsList.js`: prepend zeros until the string is two characters long. -/
def padStart2 (s : String) : String :=
  String.mk (List.replicate (2 - s.length) '0') ++ s

/-- Translated from `app/web/src/components/SessionsList.js` lines 33-38:
`formatDuration` returns the string N/A for a falsy duration (absent or zero,
modelled as `none` or `some 0`), and otherwise renders
minutes, a colon and the seconds remainder zero-padded via `padStart(2, 0)`. -/
def formatDuration : Option Nat → String
  | none => "N/A"
  | some seconds =>
      if seconds = 0 then "N/A"
      else Nat.repr (seconds / 60) ++ ":" ++ padStart2 (Nat.repr (seconds % 60))

theorem padStart2_repr_lt60 (r : Fin 60) :
    padStart2 (Nat.repr r.val) =
      if r.val < 10 then "0" ++ Nat.repr r.val else Nat.repr r.val := by
  revert r
  decide

/-- C9: `formatDuration` renders N/A for an absent or zero duration (any
falsy value) — so a completed session of zero seconds displays N/A, not 0:00
— and for every positive number of seconds renders the minutes
(floor of seconds over 60), a colon, and seconds mod 60 zero-padded to two
digits; 300 seconds renders as 5:00. -/
theorem formatDuration_spec :
    formatDuration none = "N/A" ∧
    formatDuration (some 0) = "N/A" ∧
    (∀ s : Nat, 0 < s →
      formatDuration (some s) =
        Nat.repr (s / 60) ++ ":" ++
          (if s % 60 < 10 then "0" ++ Nat.repr (s % 60) else Nat.repr (s % 60))) ∧
    formatDuration (some 300) = "5:00" := by
  refine ⟨rfl, rfl, ?_, by decide⟩
  intro s hs
  have hlt : s % 60 < 60 := Nat.mod_lt _ (by omega)
  simp only [formatDuration, if_neg (by omega : ¬s = 0)]
  congr 1
  exact padStart2_repr_lt60 ⟨s % 60, hlt⟩

/-- Witness for C9 at 61 seconds (one minute and one second, zero-padded). -/
theorem formatDuration_spec_witness :
    formatDuration (some 61) =
      Nat.repr (61 / 60) ++ ":" ++
        (if 61 % 60 < 10 then "0" ++ Nat.repr (61 % 60) else Nat.repr (61 % 60)) :=
  formatDuration_spec.2.2.1 61 (by decide)

/-- Local state of the `VoiceCall` component relevant to `endCall`: whether
`roomRef.current` holds a connected room, whether `audioRef.current` holds an
attached audio element, the `sessionId` and the connection flags. -/
structure VCState where
  roomAttached : Bool
  audioAttached : Bool
  sessionId : Option Nat
  isConnected : Bool
  isConnecting : Bool
deriving DecidableEq, Repr

/-- Observable actions of `endCall`: disconnecting the room, removing the
attached audio element, the `apiClient.endSession` HTTP call, and the
`console.error` logging of a caught rejection. -/
inductive VCEffect
  | disconnectRoom
  | removeAudioElement
  | callEndSession (sid : Nat)
  | logEndSessionError (sid : Nat)
deriving DecidableEq, Repr

/-- Translated from `app/web/src/components/VoiceCall.js` lines 123-145:
`endCall` disconnects and clears the room ref if present, removes and clears
the audio ref if present, and if a `sessionId` is set calls
`apiClient.endSession` (a rejection is caught and only logged) and then sets
`sessionId` to null; finally it clears `isConnected` and `isConnecting`.
`apiOk` models whether the `endSession` promise fulfills or rejects. -/
def endCall (st : VCState) (apiOk : Bool) : VCState × List VCEffect :=
  let roomEffs := if st.roomAttached then [VCEffect.disconnectRoom] else []
  let audioEffs := if st.audioAttached then [VCEffect.removeAudioElement] else []
  let sessEffs :=
    match st.sessionId with
    | some sid =>
        if apiOk then [VCEffect.callEndSession sid]
        else [VCEffect.callEndSession sid, VCEffect.logEndSessionError sid]
    | none => []
  ({ roomAttached := false, audioAttached := false, sessionId := none,
     isConnected := false, isConnecting := false },
   roomEffs ++ audioEffs ++ sessEffs)

/-- C10: every `endCall` invocation ends in the disconnected local state —
room disconnected, audio element removed, `sessionId` null, `isConnected`
false — whether the `endSession` API call fulfills or rejects (the post-state
is identical in both cases); and a subsequent `endCall` issues no further
end-session API call, because `sessionId` is already null. -/
theorem endCall_always_disconnects (st : VCState) (apiOk apiOk2 : Bool) :
    (endCall st apiOk).1.roomAttached = false ∧
    (endCall st apiOk).1.audioAttached = false ∧
    (endCall st apiOk).1.sessionId = none ∧
    (endCall st apiOk).1.isConnected = false ∧
    (endCall st false).1 = (endCall st true).1 ∧
    ∀ sid, VCEffect.callEndSession sid ∉ (endCall (endCall st apiOk).1 apiOk2).2 := by
  refine ⟨rfl, rfl, rfl, rfl, rfl, ?_⟩
  intro sid
  simp [endCall]

end TeleAI
